import Mathlib

/-!
Shallow embedding of the core trading services of the telegram-trading-bot
repository, with proofs about them:

* the volatility-adaptive risk calibrator
  (`services/trading.py`, `TradingEngine.calculate_scalping_sl_tp`);
* the signal-fusion probability scoring
  (`services/market_analysis.py`, `MarketAnalyzer.analyze_market`);
* the 4H trend filter and the decision engine
  (`services/trading.py`, `analyze_and_trade` / `_make_decision`);
* the drawdown circuit breaker and the position monitor
  (`services/auto_trading.py`);
* the demo position store (`data/user_data.py`, `save_demo_position`);
* structure-break and liquidity-pool detection
  (`services/advanced_analysis.py`).

All prices, percentages and volumes are modelled as rationals; Python float
operations on the values considered here are exact, except where a dedicated
model of float semantics is introduced (`PFloat`, for the NaN-producing
division in the liquidity-pool volume profile).
-/

/-- One OHLCV candle as consumed by the services (fields 2..5 of a raw
BingX row: high, low, close, volume).  The open price and timestamp are not
used by any of the embedded code paths. -/
structure Candle where
  high : ℚ
  low : ℚ
  close : ℚ
  vol : ℚ
deriving DecidableEq

/-- Last `n` elements of a list, like Python's `xs[-n:]` (the whole list when
it is shorter than `n`). -/
def lastN {α : Type} (n : ℕ) (xs : List α) : List α :=
  xs.drop (xs.length - n)

/-! ## Risk calibrator: `TradingEngine.calculate_scalping_sl_tp`
(`services/trading.py` lines 24-200) -/

/-- True-range helper: walks the candle list carrying `prev_close`, emitting
`max(h - l, |h - prev_close|, |l - prev_close|)` for each candle
(trading.py lines 54-59). -/
def trAux (prevClose : ℚ) : List Candle → List ℚ
  | [] => []
  | cd :: rest =>
      max (cd.high - cd.low) (max |cd.high - prevClose| |cd.low - prevClose|)
        :: trAux cd.close rest

/-- True-range series, with `prev_close` seeded by the first candle's close. -/
def trueRanges : List Candle → List ℚ
  | [] => []
  | c0 :: rest => trAux c0.close (c0 :: rest)

/-- Exponential moving-average fold: `acc := alpha * x + (1 - alpha) * acc`
over the series (trading.py lines 66-70). -/
def emaFold (alpha : ℚ) : ℚ → List ℚ → ℚ
  | acc, [] => acc
  | acc, x :: rest => emaFold alpha (alpha * x + (1 - alpha) * acc) rest

/-- Blended ATR: average of the EMA-smoothed true range and the 14-period
simple average of the last true ranges (trading.py lines 61-76). -/
def atrOf (tr : List ℚ) : ℚ :=
  (emaFold (2 / (14 + 1)) tr.headI tr.tail + (lastN 14 tr).sum / 14) / 2

/-- ATR as a percentage of the entry price (trading.py line 77). -/
def atrPctOf (entry : ℚ) (tr : List ℚ) : ℚ :=
  if entry > 0 then atrOf tr / entry * 100 else 0

/-- Volatility factor: 7-period recent ATR over the 14-period ATR, clamped to
[0.8, 1.5] (trading.py lines 79-85; `volatility_ratio` in the source). -/
def volFactorOf (tr : List ℚ) : ℚ :=
  let recent := if tr.length ≥ 7 then (lastN 7 tr).sum / 7 else atrOf tr
  let longAtr := (lastN 14 tr).sum / 14
  max 0.8 (min 1.5 (if longAtr > 0 then recent / longAtr else 1))

/-- Adaptive minimum stop percentage (trading.py lines 87-100). -/
def minSlPct (atr_pct : ℚ) : ℚ :=
  if atr_pct > 1.5 then 0.30 * 1.3 else if atr_pct < 0.5 then 0.30 * 0.9 else 0.30

/-- Adaptive minimum target percentage (trading.py lines 87-100). -/
def minTpPct (atr_pct : ℚ) : ℚ :=
  if atr_pct > 1.5 then 0.55 * 1.3 else if atr_pct < 0.5 then 0.55 * 0.9 else 0.55

/-- Hard stop cap (trading.py line 127). -/
def maxSlPct (atr_pct : ℚ) : ℚ := if atr_pct > 1.0 then 2.5 else 2.0

/-- Hard target cap (trading.py line 128). -/
def maxTpPct (atr_pct : ℚ) : ℚ := if atr_pct > 1.0 then 5.0 else 4.0

/-- Stop/target percentages before the final hard caps (trading.py lines
102-123): ATR-scaled distances, the 3.0 reward:risk stretch, and the
volatile-pair target boost with its reward:risk re-correction. -/
def preCapPcts (atr_pct volFactor : ℚ) : ℚ × ℚ :=
  let sl0 := max (minSlPct atr_pct) (atr_pct * 1.2 * volFactor)
  let tp0 := max (minTpPct atr_pct) (atr_pct * 1.5 * volFactor)
  let tp1 := if tp0 / sl0 < 3.0 then sl0 * 3.0 else tp0
  if atr_pct > 1.0 ∧ tp1 < 5.0 then
    let maxTpVol := min (atr_pct * 2.0) 5.0
    if tp1 < maxTpVol then
      let tp2 := maxTpVol
      let sl2 := if tp2 / sl0 > 3.0 * 1.2 then tp2 / 3.0 else sl0
      (sl2, tp2)
    else (sl0, tp1)
  else (sl0, tp1)

/-- Final stop/target percentages with the hard caps applied
(trading.py lines 125-131). -/
def slTpPcts (atr_pct volFactor : ℚ) : ℚ × ℚ :=
  let st := preCapPcts atr_pct volFactor
  (min st.1 (maxSlPct atr_pct), min st.2 (maxTpPct atr_pct))

/-- Historical TP-before-SL hit counting over a candle window
(trading.py lines 154-180): first element counts TP hits, second SL hits. -/
def tpSlHits (isLong : Bool) (stop_loss take_profit : ℚ) : List Candle → ℕ × ℕ
  | [] => (0, 0)
  | cd :: rest =>
      let r := tpSlHits isLong stop_loss take_profit rest
      if isLong then
        if cd.high ≥ take_profit then (r.1 + 1, r.2)
        else if cd.low ≤ stop_loss then (r.1, r.2 + 1) else r
      else
        if cd.low ≤ take_profit then (r.1 + 1, r.2)
        else if cd.high ≥ stop_loss then (r.1, r.2 + 1) else r

/-- Result of the risk calibrator.  The source returns these in the
`stop_loss` / `take_profit` / `meta` dictionary; `meta` values are rounded
for display in the source, unrounded here (`riskReward` is the source's
`risk_reward_ratio`, `volFactor` its `volatility_ratio`). -/
structure SLTPResult where
  stop_loss : ℚ
  take_profit : ℚ
  atr : ℚ
  atr_pct : ℚ
  volFactor : ℚ
  sl_pct : ℚ
  tp_pct : ℚ
  riskReward : ℚ
  tp_hit_rate : Option ℚ
deriving DecidableEq

/-- `TradingEngine.calculate_scalping_sl_tp` (services/trading.py lines
24-200): returns `none` exactly where the source returns null levels
(`entry <= 0`, fewer than 50 candles, fewer than 15 true-range samples). -/
def calculate_scalping_sl_tp (entry : ℚ) (isLong : Bool) (ohlcv : List Candle) :
    Option SLTPResult :=
  if entry ≤ 0 then none
  else if ohlcv.length < 50 then none
  else if (trueRanges ohlcv).length < 14 + 1 then none
  else
    let tr := trueRanges ohlcv
    let atr := atrOf tr
    let atr_pct := atrPctOf entry tr
    let vf := volFactorOf tr
    let sl_pct := (slTpPcts atr_pct vf).1
    let tp_pct := (slTpPcts atr_pct vf).2
    let stop_loss0 := if isLong then entry * (1 - sl_pct / 100) else entry * (1 + sl_pct / 100)
    let take_profit0 := if isLong then entry * (1 + tp_pct / 100) else entry * (1 - tp_pct / 100)
    -- lines 141-147: direction guarantee, re-deriving the same formulas
    let fixed :=
      if isLong then
        if ¬(stop_loss0 < entry ∧ entry < take_profit0) then
          (entry * (1 - sl_pct / 100), entry * (1 + tp_pct / 100))
        else (stop_loss0, take_profit0)
      else
        if ¬(take_profit0 < entry ∧ entry < stop_loss0) then
          (entry * (1 + sl_pct / 100), entry * (1 - tp_pct / 100))
        else (stop_loss0, take_profit0)
    let stop_loss := fixed.1
    let take_profit := fixed.2
    let riskReward := if sl_pct > 0 then tp_pct / sl_pct else 0
    let hits :=
      if ohlcv.length ≥ 20 then
        tpSlHits isLong stop_loss take_profit ((ohlcv.drop (ohlcv.length - 20)).dropLast)
      else (0, 0)
    let tp_hit_rate :=
      if ohlcv.length ≥ 20 ∧ 0 < hits.1 + hits.2 then
        some (((hits.1 : ℚ) / ((hits.1 : ℚ) + (hits.2 : ℚ))) * 100)
      else none
    some ⟨stop_loss, take_profit, atr, atr_pct, vf, sl_pct, tp_pct, riskReward, tp_hit_rate⟩

lemma minSlPct_pos (a : ℚ) : 0 < minSlPct a := by
  unfold minSlPct; split_ifs <;> norm_num

lemma minTpPct_pos (a : ℚ) : 0 < minTpPct a := by
  unfold minTpPct; split_ifs <;> norm_num

lemma maxSlPct_pos (a : ℚ) : 0 < maxSlPct a := by
  unfold maxSlPct; split_ifs <;> norm_num

lemma maxTpPct_pos (a : ℚ) : 0 < maxTpPct a := by
  unfold maxTpPct; split_ifs <;> norm_num

/-- Before the hard caps, the stop percentage is positive and the target is at
least three times the stop (the enforced reward:risk floor). -/
lemma preCapPcts_spec (a v : ℚ) :
    0 < (preCapPcts a v).1 ∧ 3 * (preCapPcts a v).1 ≤ (preCapPcts a v).2 := by
  simp only [preCapPcts]
  set s0 := max (minSlPct a) (a * 1.2 * v) with hs0def
  set t0 := max (minTpPct a) (a * 1.5 * v) with ht0def
  have hs0 : 0 < s0 := (minSlPct_pos a).trans_le (le_max_left _ _)
  have ht0 : 0 < t0 := (minTpPct_pos a).trans_le (le_max_left _ _)
  split_ifs with hA hB hC hD hE hF hG <;> dsimp only
  · -- boosted target, stop re-corrected to tp2 / 3
    have htp2 : 0 < a * 2.0 ⊓ 5.0 := lt_min (by linarith [hB.1]) (by norm_num)
    exact ⟨by positivity, by linarith⟩
  · -- boosted target above three stage-1 stops
    exact ⟨hs0, by linarith⟩
  · exact ⟨hs0, by linarith⟩
  · exact ⟨hs0, by linarith⟩
  · have htp2 : 0 < a * 2.0 ⊓ 5.0 := lt_min (by linarith [hE.1]) (by norm_num)
    exact ⟨by positivity, by linarith⟩
  · rw [not_lt, le_div_iff₀ hs0] at hA
    exact ⟨hs0, by linarith⟩
  · rw [not_lt, le_div_iff₀ hs0] at hA
    exact ⟨hs0, by linarith⟩
  · rw [not_lt, le_div_iff₀ hs0] at hA
    exact ⟨hs0, by linarith⟩

lemma slTpPcts_pos (a v : ℚ) : 0 < (slTpPcts a v).1 ∧ 0 < (slTpPcts a v).2 := by
  obtain ⟨hs, hr⟩ := preCapPcts_spec a v
  unfold slTpPcts
  exact ⟨lt_min hs (maxSlPct_pos a), lt_min (by linarith) (maxTpPct_pos a)⟩

/-- C2.  For every non-null result of the risk calibrator
(`calculate_scalping_sl_tp` with entry > 0 and at least 50 candles): if the
direction is long then `stop_loss < entry < take_profit`, and if the
direction is short then `take_profit < entry < stop_loss`. -/
theorem risk_levels_direction_ordered (entry : ℚ) (isLong : Bool)
    (ohlcv : List Candle) (r : SLTPResult)
    (h : calculate_scalping_sl_tp entry isLong ohlcv = some r) :
    (isLong = true → r.stop_loss < entry ∧ entry < r.take_profit) ∧
    (isLong = false → r.take_profit < entry ∧ entry < r.stop_loss) := by
  obtain ⟨hsl, htp⟩ :=
    slTpPcts_pos (atrPctOf entry (trueRanges ohlcv)) (volFactorOf (trueRanges ohlcv))
  cases isLong with
  | true =>
      refine ⟨fun _ => ?_, fun hf => by simp at hf⟩
      simp only [calculate_scalping_sl_tp, ite_self, if_true] at h
      split_ifs at h <;> try exact Option.noConfusion h
      all_goals (
        have hentry : 0 < entry := lt_of_not_le ‹¬ entry ≤ 0›
        rw [Option.some.injEq] at h
        subst h
        dsimp only
        constructor <;> nlinarith [mul_pos hentry hsl, mul_pos hentry htp])
  | false =>
      refine ⟨fun ht => by simp at ht, fun _ => ?_⟩
      simp only [calculate_scalping_sl_tp, ite_self, Bool.false_eq_true, if_false] at h
      split_ifs at h <;> try exact Option.noConfusion h
      all_goals (
        have hentry : 0 < entry := lt_of_not_le ‹¬ entry ≤ 0›
        rw [Option.some.injEq] at h
        subst h
        dsimp only
        constructor <;> nlinarith [mul_pos hentry hsl, mul_pos hentry htp])

/-! ### Concrete evaluation of the calibrator on a flat 50-candle window
(constant candles with high 101, low 99, close 100: every true range is 2,
so ATR = 2 and ATR% of a 100 entry is 2). -/

def wCandles : List Candle := List.replicate 50 ⟨101, 99, 100, 1⟩

lemma trAux_wconst (n : ℕ) :
    trAux 100 (List.replicate n (⟨101, 99, 100, 1⟩ : Candle)) = List.replicate n 2 := by
  induction n with
  | zero => rfl
  | succ n ih =>
      rw [List.replicate_succ, List.replicate_succ]
      show max ((101:ℚ) - 99) (max |(101:ℚ) - 100| |(99:ℚ) - 100|)
            :: trAux 100 (List.replicate n _) = 2 :: List.replicate n 2
      rw [ih]
      congr 1
      rw [show (101:ℚ) - 99 = 2 by norm_num, show (101:ℚ) - 100 = 1 by norm_num,
          show (99:ℚ) - 100 = -1 by norm_num, abs_one, abs_neg, abs_one, max_self]
      exact max_eq_left (by norm_num)

lemma trueRanges_w : trueRanges wCandles = List.replicate 50 2 := by
  rw [wCandles, List.replicate_succ, trueRanges]
  show trAux 100 (⟨101, 99, 100, 1⟩ :: List.replicate 49 ⟨101, 99, 100, 1⟩) = _
  rw [← List.replicate_succ, trAux_wconst]

lemma emaFold_const (alpha x : ℚ) (n : ℕ) : emaFold alpha x (List.replicate n x) = x := by
  induction n with
  | zero => rfl
  | succ n ih =>
      rw [List.replicate_succ, emaFold, show alpha * x + (1 - alpha) * x = x by ring, ih]

lemma atr_w : atrOf (List.replicate 50 2) = 2 := by
  rw [atrOf]
  rw [show List.replicate 50 (2:ℚ) = 2 :: List.replicate 49 2 from List.replicate_succ ..]
  simp only [List.headI, List.tail_cons]
  rw [emaFold_const]
  rw [lastN, show ((2:ℚ) :: List.replicate 49 2) = List.replicate 50 2 from (List.replicate_succ ..).symm]
  rw [List.drop_replicate, List.sum_replicate]
  norm_num

lemma atrPct_w : atrPctOf 100 (List.replicate 50 2) = 2 := by
  rw [atrPctOf, if_pos (by norm_num), atr_w]
  norm_num

lemma volFactor_w : volFactorOf (List.replicate 50 2) = 1 := by
  rw [volFactorOf, lastN, lastN]
  simp only [List.length_replicate, List.drop_replicate, List.sum_replicate]
  norm_num

lemma slTp_w : slTpPcts 2 1 = (2.4, 5) := by
  norm_num [slTpPcts, preCapPcts, minSlPct, minTpPct, maxSlPct, maxTpPct]

lemma hits_w (n : ℕ) :
    tpSlHits true (488/5) 105 (List.replicate n (⟨101, 99, 100, 1⟩ : Candle)) = (0, 0) := by
  induction n with
  | zero => rfl
  | succ n ih =>
      rw [List.replicate_succ, tpSlHits]
      simp only [ih]
      norm_num

/-- The calibrator's exact output on the flat window: stop 97.6, target 105,
stop distance 2.4%, target distance capped at 5%. -/
def wRes : SLTPResult := ⟨488/5, 105, 2, 2, 1, 2.4, 5, 25/12, none⟩

lemma calc_eval_w : calculate_scalping_sl_tp 100 true wCandles = some wRes := by
  have hlen : wCandles.length = 50 := by simp [wCandles]
  rw [calculate_scalping_sl_tp]
  rw [if_neg (by norm_num), if_neg (by rw [hlen]; norm_num),
      if_neg (by rw [trueRanges_w, List.length_replicate]; norm_num)]
  have hwin : (List.drop 30 wCandles).dropLast
      = List.replicate 19 (⟨101, 99, 100, 1⟩ : Candle) := by
    rw [wCandles, List.drop_replicate, show (50:ℕ) - 30 = 19 + 1 from rfl,
        List.replicate_succ', List.dropLast_concat]
  simp only [trueRanges_w, atr_w, atrPct_w, volFactor_w, slTp_w, hlen, hwin]
  norm_num [wRes, hits_w]

/-- C2 witness: the ordering theorem applied to the flat 50-candle window at
entry 100 (long), where the calibrator yields stop 97.6 and target 105. -/
theorem risk_levels_direction_ordered_witness :
    wRes.stop_loss < 100 ∧ (100:ℚ) < wRes.take_profit :=
  (risk_levels_direction_ordered 100 true wCandles wRes calc_eval_w).1 rfl

/-- C3 counterexample: on the flat 50-candle window (ATR% = 2) at entry 100,
the calibrator stretches the target to 7.2% for the 3.0 reward:risk floor but
then caps it at 5% while leaving the stop at 2.4%, so the delivered
`tp_pct / sl_pct` is 25/12 < 3. -/
theorem reward_risk_below_target_counterexample :
    calculate_scalping_sl_tp 100 true wCandles = some wRes ∧
    wRes.tp_pct / wRes.sl_pct < 3 :=
  ⟨calc_eval_w, by norm_num [wRes]⟩

/-- C3 amended: the 3.0 reward:risk floor holds for the stop/target
percentages as computed before the final hard caps, and it survives the caps
whenever the target cap does not bind; the capped target can otherwise drop
the delivered ratio below 3. -/
theorem reward_risk_met_before_caps (a v : ℚ) :
    3 * (preCapPcts a v).1 ≤ (preCapPcts a v).2 ∧
    ((preCapPcts a v).2 ≤ maxTpPct a → 3 * (slTpPcts a v).1 ≤ (slTpPcts a v).2) := by
  obtain ⟨hs, hr⟩ := preCapPcts_spec a v
  refine ⟨hr, fun hcap => ?_⟩
  unfold slTpPcts
  dsimp only
  rw [min_eq_left hcap]
  have hmin : min (preCapPcts a v).1 (maxSlPct a) ≤ (preCapPcts a v).1 := min_le_left _ _
  nlinarith

/-- C3 amended witness: a low-volatility instance (ATR% = 0.3) where no cap
binds and the delivered ratio is exactly 3. -/
theorem reward_risk_met_before_caps_witness :
    (preCapPcts 0.3 1).2 ≤ maxTpPct 0.3 ∧
    3 * (slTpPcts 0.3 1).1 ≤ (slTpPcts 0.3 1).2 :=
  ⟨by norm_num [preCapPcts, minSlPct, minTpPct, maxTpPct],
   (reward_risk_met_before_caps 0.3 1).2
     (by norm_num [preCapPcts, minSlPct, minTpPct, maxTpPct])⟩

/-! ## Signal fusion scoring: `MarketAnalyzer.analyze_market`
(`services/market_analysis.py` lines 437-550) -/

/-- Base probability from the signed signal strength
(market_analysis.py line 482). -/
def baseProbability (signal_strength : ℚ) : ℚ := min (|signal_strength| * 1.5) 70

/-- Bonus for confirmation count, 5% per confirmation capped at 20%
(market_analysis.py line 485). -/
def confirmationBonus (confirmation_count : ℕ) : ℚ :=
  min ((confirmation_count : ℚ) * 5) 20

/-- Penalty for a confirmation shortfall against the minimum of 3
(market_analysis.py line 495). -/
def confirmationPenalty (confirmation_count : ℕ) : ℚ :=
  max 0 ((3 - (confirmation_count : ℚ)) * 10)

/-- Quality bonus from divergence and liquidity-sweep signals
(market_analysis.py lines 488-492). -/
def qualityBonus (hasDivergence hasSweep : Bool) : ℚ :=
  (if hasDivergence then 10 else 0) + (if hasSweep then 8 else 0)

/-- Raw probability before band mapping (market_analysis.py line 498). -/
def rawProbability (signal_strength quality_bonus : ℚ) (confirmation_count : ℕ) : ℚ :=
  baseProbability signal_strength + confirmationBonus confirmation_count
    + quality_bonus - confirmationPenalty confirmation_count

/-- Final signal band from the signed strength
(market_analysis.py lines 504-543). -/
def finalSignalOf (signal_strength : ℚ) : String :=
  if signal_strength > 30 then "strong_long"
  else if signal_strength > 15 then "long"
  else if signal_strength < -30 then "strong_short"
  else if signal_strength < -15 then "short"
  else if |signal_strength| > 5 then (if signal_strength > 0 then "long" else "short")
  else "neutral"

/-- Probability assigned inside each band, before the shortfall adjustment
(market_analysis.py lines 504-544). -/
def bandProbability (signal_strength quality_bonus : ℚ) (confirmation_count : ℕ) : ℚ :=
  let raw := rawProbability signal_strength quality_bonus confirmation_count
  if signal_strength > 30 then
    if 3 ≤ confirmation_count then min (60 + raw * 0.4) 92
    else max 35 (min (45 + raw * 0.3) 75)
  else if signal_strength > 15 then
    if 3 ≤ confirmation_count then min (45 + raw * 0.35) 75
    else max 30 (min (35 + raw * 0.25) 60)
  else if signal_strength < -30 then
    if 3 ≤ confirmation_count then min (60 + raw * 0.4) 92
    else max 35 (min (45 + raw * 0.3) 75)
  else if signal_strength < -15 then
    if 3 ≤ confirmation_count then min (45 + raw * 0.35) 75
    else max 30 (min (35 + raw * 0.25) 60)
  else if |signal_strength| > 5 then
    if 3 ≤ confirmation_count then max 30 (min (30 + raw * 0.3) 55)
    else
      max 20 (min (25 + raw * 0.2 * max 0.3 ((confirmation_count : ℚ) / 3)) 45)
  else 0

/-- Probability after the confirmation-shortfall adjustment
(market_analysis.py lines 546-550): with fewer than 3 confirmations a
positive probability is scaled by `max(0.4, count / 3)` and floored at 20. -/
def probabilityOf (signal_strength quality_bonus : ℚ) (confirmation_count : ℕ) : ℚ :=
  let p := bandProbability signal_strength quality_bonus confirmation_count
  if confirmation_count < 3 ∧ 0 < p then
    max (p * max 0.4 ((confirmation_count : ℚ) / 3)) 20
  else p

/-- The band-specific formulas, abstracted over the band kind so that the
`strong_long`/`strong_short` and `long`/`short` pairs share one shape. -/
inductive BandKind
  | strong
  | normal
  | weak
  | flat
deriving DecidableEq

def bandFormula (k : BandKind) (raw : ℚ) (confirmation_count : ℕ) : ℚ :=
  match k with
  | .strong =>
      if 3 ≤ confirmation_count then min (60 + raw * 0.4) 92
      else max 35 (min (45 + raw * 0.3) 75)
  | .normal =>
      if 3 ≤ confirmation_count then min (45 + raw * 0.35) 75
      else max 30 (min (35 + raw * 0.25) 60)
  | .weak =>
      if 3 ≤ confirmation_count then max 30 (min (30 + raw * 0.3) 55)
      else max 20 (min (25 + raw * 0.2 * max 0.3 ((confirmation_count : ℚ) / 3)) 45)
  | .flat => 0

def bandOf (signal_strength : ℚ) : BandKind :=
  if signal_strength > 30 then .strong
  else if signal_strength > 15 then .normal
  else if signal_strength < -30 then .strong
  else if signal_strength < -15 then .normal
  else if |signal_strength| > 5 then .weak
  else .flat

lemma bandProbability_eq (s q : ℚ) (c : ℕ) :
    bandProbability s q c = bandFormula (bandOf s) (rawProbability s q c) c := by
  unfold bandProbability bandOf
  split_ifs <;> simp_all [bandFormula] <;> rw [if_neg (by omega)]

/-- Confirmation-source list (market_analysis.py lines 438-474): candle
pattern, price-near-zone, order flow, and the two indicator checks, where
both RSI and MACD contribute the `indicator` tag. -/
def confirmationSources (candleConfirms hasLevel ofConfirms rsiConfirms macdConfirms : Bool) :
    List String :=
  (if candleConfirms then ["candle"] else []) ++
  (if hasLevel then ["level"] else []) ++
  (if ofConfirms then ["order_flow"] else []) ++
  (if rsiConfirms then ["indicator"] else []) ++
  (if macdConfirms then ["indicator"] else [])

/-- A fair-value-gap zone as carried in the analysis dictionaries. -/
structure FVG where
  type : String
  zone_start : ℚ
  zone_end : ℚ
  mid_point : ℚ
deriving DecidableEq

/-- Price-near-zone confirmation over the last two FVGs
(market_analysis.py lines 443-461). -/
def hasLevelConfirmation (fvgs : List FVG) (current_price : ℚ) : Bool :=
  (lastN 2 fvgs).any fun fvg =>
    if fvg.type = "bullish_fvg" then
      decide (current_price ≠ 0) &&
        decide (fvg.zone_start ≤ current_price ∧ current_price ≤ fvg.zone_end * 1.01)
    else if fvg.type = "bearish_fvg" then
      decide (current_price ≠ 0) &&
        decide (fvg.zone_end ≤ current_price ∧ current_price ≤ fvg.zone_start * 1.01)
    else false

/-! ## The 4H trend filter: `TradingEngine.analyze_and_trade`
(`services/trading.py` lines 261-278) -/

inductive Trend4h
  | bullish
  | bearish
deriving DecidableEq

/-- The 4H trend filter applied to a fused (signal, probability) pair:
an opposing trend subtracts 15 probability points (floored at 0) and forces
the signal to neutral when the result drops below 50, recording a
cancellation reason.  The penalised probability itself is kept. -/
def applyTrend4hFilter (trend : Option Trend4h) (final_signal : String) (probability : ℚ) :
    String × ℚ × Option String :=
  match trend with
  | none => (final_signal, probability, none)
  | some .bearish =>
      if final_signal = "long" ∨ final_signal = "strong_long" then
        let p := max 0 (probability - 15)
        if p < 50 then ("neutral", p, some "signal_against_4h_bearish_trend")
        else (final_signal, p, none)
      else (final_signal, probability, none)
  | some .bullish =>
      if final_signal = "short" ∨ final_signal = "strong_short" then
        let p := max 0 (probability - 15)
        if p < 50 then ("neutral", p, some "signal_against_4h_bullish_trend")
        else (final_signal, p, none)
      else (final_signal, probability, none)

/-! ### Probability / neutrality facts (C6) -/

lemma probEval_C6 : probabilityOf 20 (qualityBonus false false) 3 = 243/4 := by
  norm_num [probabilityOf, bandProbability, rawProbability, baseProbability,
    confirmationBonus, confirmationPenalty, qualityBonus]

lemma filterEval_C6 :
    applyTrend4hFilter (some .bearish) (finalSignalOf 20) (243/4)
      = ("neutral", 183/4, some "signal_against_4h_bearish_trend") := by
  norm_num [applyTrend4hFilter, finalSignalOf]

/-- C6 counterexample: a long signal of strength 20 with 3 confirmations
scores probability 60.75; a bearish 4H trend then forces it to neutral while
only subtracting the 15-point penalty, so the reported analysis has direction
neutral with probability 45.75, not 0. -/
theorem neutral_nonzero_probability_counterexample :
    (applyTrend4hFilter (some .bearish) (finalSignalOf 20)
        (probabilityOf 20 (qualityBonus false false) 3)).1 = "neutral" ∧
    (applyTrend4hFilter (some .bearish) (finalSignalOf 20)
        (probabilityOf 20 (qualityBonus false false) 3)).2.1 ≠ 0 := by
  rw [probEval_C6, filterEval_C6]
  norm_num

lemma trend_filter_neutral_lt_50 (trend : Option Trend4h) (fs : String) (p : ℚ)
    (hfs : fs ≠ "neutral")
    (h : (applyTrend4hFilter trend fs p).1 = "neutral") :
    (applyTrend4hFilter trend fs p).2.1 < 50 := by
  rcases trend with _ | t
  · exact absurd h hfs
  · rcases t <;>
      (dsimp only [applyTrend4hFilter] at h ⊢
       split_ifs at h ⊢ with h1 h2
       · exact h2
       · exact absurd h hfs
       · exact absurd h hfs)

/-- C6 amended: the fusion scoring itself gives probability 0 to a neutral
signal, and both cancellation rules zero the probability, but the 4H trend
filter forces neutrality while merely applying the 15-point penalty: a
trend-forced neutral result carries a probability strictly below 50 that is
not necessarily 0. -/
theorem neutral_probability_amended (s q : ℚ) (c : ℕ) (trend : Option Trend4h) :
    (finalSignalOf s = "neutral" → probabilityOf s q c = 0) ∧
    ((applyTrend4hFilter trend (finalSignalOf s) (probabilityOf s q c)).1 = "neutral" →
      finalSignalOf s ≠ "neutral" →
      (applyTrend4hFilter trend (finalSignalOf s) (probabilityOf s q c)).2.1 < 50) := by
  constructor
  · intro hneu
    unfold finalSignalOf at hneu
    unfold probabilityOf bandProbability
    split_ifs at hneu ⊢ <;> simp_all
  · intro h hfs
    exact trend_filter_neutral_lt_50 trend _ _ hfs h

/-- C6 amended witness: the trend-forced neutral case at strength 20,
3 confirmations, bearish 4H trend. -/
theorem neutral_probability_amended_witness :
    (applyTrend4hFilter (some .bearish) (finalSignalOf 20)
        (probabilityOf 20 (qualityBonus false false) 3)).2.1 < 50 :=
  (neutral_probability_amended 20 (qualityBonus false false) 3 (some .bearish)).2
    (by rw [probEval_C6, filterEval_C6])
    (by rw [show finalSignalOf 20 = "long" by norm_num [finalSignalOf]]; decide)

/-! ### Monotonicity of confirmations and probability (C7) -/

lemma baseProbability_nonneg (s : ℚ) : 0 ≤ baseProbability s :=
  le_min (by positivity) (by norm_num)

lemma confirmationBonus_mono {c c' : ℕ} (h : c ≤ c') :
    confirmationBonus c ≤ confirmationBonus c' := by
  unfold confirmationBonus
  have hc : (c : ℚ) ≤ c' := Nat.cast_le.2 h
  exact min_le_min (by nlinarith) le_rfl

lemma confirmationPenalty_anti {c c' : ℕ} (h : c ≤ c') :
    confirmationPenalty c' ≤ confirmationPenalty c := by
  unfold confirmationPenalty
  have hc : (c : ℚ) ≤ c' := Nat.cast_le.2 h
  exact max_le_max le_rfl (by nlinarith)

lemma rawProbability_mono (s q : ℚ) {c c' : ℕ} (h : c ≤ c') :
    rawProbability s q c ≤ rawProbability s q c' := by
  unfold rawProbability
  linarith [confirmationBonus_mono h, confirmationPenalty_anti h]

lemma rawProbability_zero (s q : ℚ) : rawProbability s q 0 = baseProbability s + q - 30 := by
  unfold rawProbability confirmationBonus confirmationPenalty
  norm_num
  try ring

lemma rawProbability_one (s q : ℚ) : rawProbability s q 1 = baseProbability s + q - 15 := by
  unfold rawProbability confirmationBonus confirmationPenalty
  norm_num
  try ring

lemma rawProbability_two (s q : ℚ) : rawProbability s q 2 = baseProbability s + q := by
  unfold rawProbability confirmationBonus confirmationPenalty
  norm_num
  try ring

lemma rawProbability_three (s q : ℚ) : rawProbability s q 3 = baseProbability s + q + 15 := by
  unfold rawProbability confirmationBonus confirmationPenalty
  norm_num
  try ring

/-- The shortfall-adjusted probability as a function of the band kind, the
raw probability and the confirmation count (the composition of
`bandFormula` with the lines 546-550 adjustment). -/
def probAdjusted (k : BandKind) (raw : ℚ) (c : ℕ) : ℚ :=
  let p := bandFormula k raw c
  if c < 3 ∧ 0 < p then max (p * max 0.4 ((c : ℚ) / 3)) 20 else p
lemma probabilityOf_eq (s q : ℚ) (c : ℕ) :
    probabilityOf s q c = probAdjusted (bandOf s) (rawProbability s q c) c := by
  unfold probabilityOf probAdjusted
  rw [bandProbability_eq]


lemma probAdjusted_step01 (k : BandKind) (r0 r1 : ℚ) (h : r1 = r0 + 15) (hr : -30 ≤ r0) :
    probAdjusted k r0 0 ≤ probAdjusted k r1 1 := by
  have hc0 : max (0.4:ℚ) (((0:ℕ):ℚ)/3) = 0.4 := by norm_num
  have hc1 : max (0.4:ℚ) (((1:ℕ):ℚ)/3) = 0.4 := by norm_num
  cases k with
  | flat =>
      simp only [probAdjusted, bandFormula]
      norm_num
  | strong =>
      simp only [probAdjusted, bandFormula]
      have hp0 : (0:ℚ) < max 35 (min (45 + r0 * 0.3) 75) :=
        lt_of_lt_of_le (by norm_num) (le_max_left _ _)
      have hp1 : (0:ℚ) < max 35 (min (45 + r1 * 0.3) 75) :=
        lt_of_lt_of_le (by norm_num) (le_max_left _ _)
      rw [if_neg (by omega : ¬ (3:ℕ) ≤ 0), if_neg (by omega : ¬ (3:ℕ) ≤ 1),
          if_pos ⟨by omega, hp0⟩, if_pos ⟨by omega, hp1⟩, hc0, hc1]
      have hP : max 35 (min (45 + r0 * 0.3) 75) ≤ max 35 (min (45 + r1 * 0.3) 75) :=
        max_le_max le_rfl (min_le_min (by linarith) le_rfl)
      exact max_le_max (mul_le_mul_of_nonneg_right hP (by norm_num)) le_rfl
  | normal =>
      simp only [probAdjusted, bandFormula]
      have hp0 : (0:ℚ) < max 30 (min (35 + r0 * 0.25) 60) :=
        lt_of_lt_of_le (by norm_num) (le_max_left _ _)
      have hp1 : (0:ℚ) < max 30 (min (35 + r1 * 0.25) 60) :=
        lt_of_lt_of_le (by norm_num) (le_max_left _ _)
      rw [if_neg (by omega : ¬ (3:ℕ) ≤ 0), if_neg (by omega : ¬ (3:ℕ) ≤ 1),
          if_pos ⟨by omega, hp0⟩, if_pos ⟨by omega, hp1⟩, hc0, hc1]
      have hP : max 30 (min (35 + r0 * 0.25) 60) ≤ max 30 (min (35 + r1 * 0.25) 60) :=
        max_le_max le_rfl (min_le_min (by linarith) le_rfl)
      exact max_le_max (mul_le_mul_of_nonneg_right hP (by norm_num)) le_rfl
  | weak =>
      simp only [probAdjusted, bandFormula]
      have hp0 : (0:ℚ) < max 20 (min (25 + r0 * 0.2 * max 0.3 (((0:ℕ):ℚ)/3)) 45) :=
        lt_of_lt_of_le (by norm_num) (le_max_left _ _)
      have hp1 : (0:ℚ) < max 20 (min (25 + r1 * 0.2 * max 0.3 (((1:ℕ):ℚ)/3)) 45) :=
        lt_of_lt_of_le (by norm_num) (le_max_left _ _)
      rw [if_neg (by omega : ¬ (3:ℕ) ≤ 0), if_neg (by omega : ¬ (3:ℕ) ≤ 1),
          if_pos ⟨by omega, hp0⟩, if_pos ⟨by omega, hp1⟩, hc0, hc1]
      rw [show max (0.3:ℚ) (((0:ℕ):ℚ)/3) = 0.3 by norm_num,
          show max (0.3:ℚ) (((1:ℕ):ℚ)/3) = 1/3 by norm_num]
      have hP : max 20 (min (25 + r0 * 0.2 * 0.3) 45) ≤ max 20 (min (25 + r1 * 0.2 * (1/3)) 45) :=
        max_le_max le_rfl (min_le_min (by nlinarith) le_rfl)
      exact max_le_max (mul_le_mul_of_nonneg_right hP (by norm_num)) le_rfl

lemma probAdjusted_step12 (k : BandKind) (r1 r2 : ℚ) (h : r2 = r1 + 15) (hr : -15 ≤ r1) :
    probAdjusted k r1 1 ≤ probAdjusted k r2 2 := by
  have hc1 : max (0.4:ℚ) (((1:ℕ):ℚ)/3) = 0.4 := by norm_num
  have hc2 : max (0.4:ℚ) (((2:ℕ):ℚ)/3) = 2/3 := by norm_num
  cases k with
  | flat =>
      simp only [probAdjusted, bandFormula]
      norm_num
  | strong =>
      simp only [probAdjusted, bandFormula]
      have hp1 : (0:ℚ) < max 35 (min (45 + r1 * 0.3) 75) :=
        lt_of_lt_of_le (by norm_num) (le_max_left _ _)
      have hp2 : (0:ℚ) < max 35 (min (45 + r2 * 0.3) 75) :=
        lt_of_lt_of_le (by norm_num) (le_max_left _ _)
      rw [if_neg (by omega : ¬ (3:ℕ) ≤ 1), if_neg (by omega : ¬ (3:ℕ) ≤ 2),
          if_pos ⟨by omega, hp1⟩, if_pos ⟨by omega, hp2⟩, hc1, hc2]
      have hP : max 35 (min (45 + r1 * 0.3) 75) ≤ max 35 (min (45 + r2 * 0.3) 75) :=
        max_le_max le_rfl (min_le_min (by linarith) le_rfl)
      refine max_le_max ?_ le_rfl
      nlinarith [hp1.le]
  | normal =>
      simp only [probAdjusted, bandFormula]
      have hp1 : (0:ℚ) < max 30 (min (35 + r1 * 0.25) 60) :=
        lt_of_lt_of_le (by norm_num) (le_max_left _ _)
      have hp2 : (0:ℚ) < max 30 (min (35 + r2 * 0.25) 60) :=
        lt_of_lt_of_le (by norm_num) (le_max_left _ _)
      rw [if_neg (by omega : ¬ (3:ℕ) ≤ 1), if_neg (by omega : ¬ (3:ℕ) ≤ 2),
          if_pos ⟨by omega, hp1⟩, if_pos ⟨by omega, hp2⟩, hc1, hc2]
      have hP : max 30 (min (35 + r1 * 0.25) 60) ≤ max 30 (min (35 + r2 * 0.25) 60) :=
        max_le_max le_rfl (min_le_min (by linarith) le_rfl)
      refine max_le_max ?_ le_rfl
      nlinarith [hp1.le]
  | weak =>
      simp only [probAdjusted, bandFormula]
      have hp1 : (0:ℚ) < max 20 (min (25 + r1 * 0.2 * max 0.3 (((1:ℕ):ℚ)/3)) 45) :=
        lt_of_lt_of_le (by norm_num) (le_max_left _ _)
      have hp2 : (0:ℚ) < max 20 (min (25 + r2 * 0.2 * max 0.3 (((2:ℕ):ℚ)/3)) 45) :=
        lt_of_lt_of_le (by norm_num) (le_max_left _ _)
      rw [if_neg (by omega : ¬ (3:ℕ) ≤ 1), if_neg (by omega : ¬ (3:ℕ) ≤ 2),
          if_pos ⟨by omega, hp1⟩, if_pos ⟨by omega, hp2⟩, hc1, hc2]
      rw [show max (0.3:ℚ) (((1:ℕ):ℚ)/3) = 1/3 by norm_num,
          show max (0.3:ℚ) (((2:ℕ):ℚ)/3) = 2/3 by norm_num]
      have hP : max 20 (min (25 + r1 * 0.2 * (1/3)) 45) ≤ max 20 (min (25 + r2 * 0.2 * (2/3)) 45) :=
        max_le_max le_rfl (min_le_min (by nlinarith) le_rfl)
      have hp1' : (0:ℚ) ≤ max 20 (min (25 + r1 * 0.2 * (1/3)) 45) :=
        le_trans (by norm_num) (le_max_left _ _)
      refine max_le_max ?_ le_rfl
      nlinarith [hp1']

lemma probAdjusted_step23 (k : BandKind) (r2 r3 : ℚ) (h : r3 = r2 + 15) (hr : 0 ≤ r2) :
    probAdjusted k r2 2 ≤ probAdjusted k r3 3 := by
  have hc2 : max (0.4:ℚ) (((2:ℕ):ℚ)/3) = 2/3 := by norm_num
  cases k with
  | flat =>
      simp only [probAdjusted, bandFormula]
      norm_num
  | strong =>
      simp only [probAdjusted, bandFormula]
      have hp2 : (0:ℚ) < max 35 (min (45 + r2 * 0.3) 75) :=
        lt_of_lt_of_le (by norm_num) (le_max_left _ _)
      have hna : ¬((3:ℕ) < 3 ∧ (0:ℚ) < min (60 + r3 * 0.4) 92) :=
        fun hh => absurd hh.1 (by omega)
      rw [if_neg (by omega : ¬ (3:ℕ) ≤ 2), if_pos (by omega : (3:ℕ) ≤ 3),
          if_pos ⟨by omega, hp2⟩, if_neg hna, hc2]
      have hRHS : (66:ℚ) ≤ min (60 + r3 * 0.4) 92 := le_min (by linarith) (by norm_num)
      have hP2 : max 35 (min (45 + r2 * 0.3) 75) ≤ 75 :=
        max_le (by norm_num) (min_le_right _ _)
      exact max_le (by linarith) (by linarith)
  | normal =>
      simp only [probAdjusted, bandFormula]
      have hp2 : (0:ℚ) < max 30 (min (35 + r2 * 0.25) 60) :=
        lt_of_lt_of_le (by norm_num) (le_max_left _ _)
      have hna : ¬((3:ℕ) < 3 ∧ (0:ℚ) < min (45 + r3 * 0.35) 75) :=
        fun hh => absurd hh.1 (by omega)
      rw [if_neg (by omega : ¬ (3:ℕ) ≤ 2), if_pos (by omega : (3:ℕ) ≤ 3),
          if_pos ⟨by omega, hp2⟩, if_neg hna, hc2]
      have hRHS : (201/4:ℚ) ≤ min (45 + r3 * 0.35) 75 := le_min (by linarith) (by norm_num)
      have hP2 : max 30 (min (35 + r2 * 0.25) 60) ≤ 60 :=
        max_le (by norm_num) (min_le_right _ _)
      exact max_le (by linarith) (by linarith)
  | weak =>
      simp only [probAdjusted, bandFormula]
      have hp2 : (0:ℚ) < max 20 (min (25 + r2 * 0.2 * max 0.3 (((2:ℕ):ℚ)/3)) 45) :=
        lt_of_lt_of_le (by norm_num) (le_max_left _ _)
      have hna : ¬((3:ℕ) < 3 ∧ (0:ℚ) < max 30 (min (30 + r3 * 0.3) 55)) :=
        fun hh => absurd hh.1 (by omega)
      rw [if_neg (by omega : ¬ (3:ℕ) ≤ 2), if_pos (by omega : (3:ℕ) ≤ 3),
          if_pos ⟨by omega, hp2⟩, if_neg hna, hc2]
      have hRHS : (30:ℚ) ≤ max 30 (min (30 + r3 * 0.3) 55) := le_max_left _ _
      have hP2 : max 20 (min (25 + r2 * 0.2 * max 0.3 (((2:ℕ):ℚ)/3)) 45) ≤ 45 :=
        max_le (by norm_num) (min_le_right _ _)
      exact max_le (by linarith) (by linarith)

lemma probAdjusted_stepHigh (k : BandKind) (c : ℕ) (hc : 3 ≤ c) (r r' : ℚ) (h : r ≤ r') :
    probAdjusted k r c ≤ probAdjusted k r' (c + 1) := by
  cases k with
  | flat => simp [probAdjusted, bandFormula]
  | strong =>
      simp only [probAdjusted, bandFormula]
      have hna : ¬(c < 3 ∧ (0:ℚ) < min (60 + r * 0.4) 92) :=
        fun hh => absurd hh.1 (by omega)
      have hnb : ¬(c + 1 < 3 ∧ (0:ℚ) < min (60 + r' * 0.4) 92) :=
        fun hh => absurd hh.1 (by omega)
      rw [if_pos hc, if_pos (show 3 ≤ c + 1 by omega), if_neg hna, if_neg hnb]
      exact min_le_min (by linarith) le_rfl
  | normal =>
      simp only [probAdjusted, bandFormula]
      have hna : ¬(c < 3 ∧ (0:ℚ) < min (45 + r * 0.35) 75) :=
        fun hh => absurd hh.1 (by omega)
      have hnb : ¬(c + 1 < 3 ∧ (0:ℚ) < min (45 + r' * 0.35) 75) :=
        fun hh => absurd hh.1 (by omega)
      rw [if_pos hc, if_pos (show 3 ≤ c + 1 by omega), if_neg hna, if_neg hnb]
      exact min_le_min (by linarith) le_rfl
  | weak =>
      simp only [probAdjusted, bandFormula]
      have hna : ¬(c < 3 ∧ (0:ℚ) < max 30 (min (30 + r * 0.3) 55)) :=
        fun hh => absurd hh.1 (by omega)
      have hnb : ¬(c + 1 < 3 ∧ (0:ℚ) < max 30 (min (30 + r' * 0.3) 55)) :=
        fun hh => absurd hh.1 (by omega)
      rw [if_pos hc, if_pos (show 3 ≤ c + 1 by omega), if_neg hna, if_neg hnb]
      exact max_le_max le_rfl (min_le_min (by linarith) le_rfl)

lemma probabilityOf_succ (s q : ℚ) (hq : 0 ≤ q) (c : ℕ) :
    probabilityOf s q c ≤ probabilityOf s q (c + 1) := by
  have hB := baseProbability_nonneg s
  rw [probabilityOf_eq, probabilityOf_eq]
  obtain _ | _ | _ | n := c
  · rw [show (0:ℕ) + 1 = 1 from rfl]
    exact probAdjusted_step01 _ _ _
      (by rw [rawProbability_zero, rawProbability_one]; try ring)
      (by rw [rawProbability_zero]; linarith)
  · rw [show (0:ℕ) + 1 = 1 from rfl, show (1:ℕ) + 1 = 2 from rfl]
    exact probAdjusted_step12 _ _ _
      (by rw [rawProbability_one, rawProbability_two]; try ring)
      (by rw [rawProbability_one]; linarith)
  · rw [show (0:ℕ) + 1 = 1 from rfl, show (1:ℕ) + 1 = 2 from rfl,
        show (2:ℕ) + 1 = 3 from rfl]
    exact probAdjusted_step23 _ _ _
      (by rw [rawProbability_two, rawProbability_three]; try ring)
      (by rw [rawProbability_two]; linarith)
  · exact probAdjusted_stepHigh _ _ (by omega) _ _ (rawProbability_mono s q (Nat.le_succ _))

lemma probabilityOf_mono (s q : ℚ) (hq : 0 ≤ q) {c c' : ℕ} (h : c ≤ c') :
    probabilityOf s q c ≤ probabilityOf s q c' := by
  induction c' with
  | zero => simp_all
  | succ n ih =>
      rcases Nat.lt_or_ge c (n + 1) with hlt | hge
      · exact le_trans (ih (by omega)) (probabilityOf_succ s q hq n)
      · have : c = n + 1 := by omega
        subst this
        exact le_rfl

/-- C7.  Confirmation counting is monotonic: promoting any subset of the five
confirmation sources from non-confirming to confirming never decreases the
length of the source list (so in particular adding one more independent
confirming source never decreases `confirmation_count`), and for a fixed
signal band (fixed `signal_strength` and quality bonus) the fused probability
is non-decreasing in the confirmation count, including across the boundary
where the minimum of 3 confirmations is first met. -/
theorem confirmation_count_probability_monotone :
    (∀ b1 b2 b3 b4 b5 c1 c2 c3 c4 c5 : Bool,
      b1 ≤ c1 → b2 ≤ c2 → b3 ≤ c3 → b4 ≤ c4 → b5 ≤ c5 →
      (confirmationSources b1 b2 b3 b4 b5).length
        ≤ (confirmationSources c1 c2 c3 c4 c5).length) ∧
    (∀ (s q : ℚ) (c c' : ℕ), 0 ≤ q → c ≤ c' →
      probabilityOf s q c ≤ probabilityOf s q c') :=
  ⟨by decide, fun s q _ _ hq h => probabilityOf_mono s q hq h⟩

/-- C7 witness: one more confirming source at the 2-to-3 boundary, for the
long band at strength 20: the count rises from 2 to 3 and the probability
rises with it. -/
theorem confirmation_count_probability_monotone_witness :
    (confirmationSources true true false false false).length
      ≤ (confirmationSources true true true false false).length ∧
    probabilityOf 20 0 2 ≤ probabilityOf 20 0 3 :=
  ⟨confirmation_count_probability_monotone.1 true true false false false
      true true true false false le_rfl le_rfl (by decide) le_rfl le_rfl,
   confirmation_count_probability_monotone.2 20 0 2 3 le_rfl (by omega)⟩

/-! ## Demo position store and the duplicate-open guard (C1)
(`data/user_data.py` save_demo_position, `services/auto_trading.py`
lines 390-418, `services/statistics.py` add_demo_trade) -/

/-- A stored position record (the fields relevant to the open/close
lifecycle of the demo store). -/
structure Position where
  symbol : String
  status : String
  entry : ℚ
  amount : ℚ
deriving DecidableEq

/-- `UserDataManager.save_demo_position` (data/user_data.py lines 228-247),
the JSON-store path, which the demo trade flow reaches through
`StatisticsManager.add_demo_trade` (statistics.py lines 155-165, which forces
`status = 'open'`): the first stored open position with the same symbol is
overwritten with the new record; otherwise the record is appended with
status `open`. -/
def save_demo_position : List Position → Position → List Position
  | [], pos => [{ pos with status := "open" }]
  | p :: rest, pos =>
      if p.symbol = pos.symbol ∧ p.status = "open" then pos :: rest
      else p :: save_demo_position rest pos

/-- Number of open positions stored for a symbol. -/
def countOpen (store : List Position) (sym : String) : ℕ :=
  (store.filter fun p => decide (p.symbol = sym ∧ p.status = "open")).length

/-- At most one open position per symbol (the per-account store invariant;
accounts are independent stores). -/
def atMostOneOpen (store : List Position) : Prop :=
  ∀ sym, countOpen store sym ≤ 1

/-- An exchange-side position as returned by `get_positions`. -/
structure ExchangePosition where
  symbol : String
  contracts : ℚ
deriving DecidableEq

/-- The real-mode duplicate guard of `AutoTradingManager._analyze_and_trade`
(auto_trading.py lines 393-407): the order is suppressed when the account's
open-position count has reached the maximum or an open position with the
same symbol exists.  In demo mode this check is skipped entirely
(the `if not is_demo` guard at line 392). -/
def real_open_allowed (positions : List ExchangePosition) (symbol : String)
    (max_positions : ℕ) : Bool :=
  let openPos := positions.filter fun p => decide (p.contracts ≠ 0)
  !(decide (max_positions ≤ openPos.length)) &&
    !(openPos.any fun p => decide (p.symbol = symbol))

lemma countOpen_nil (sym : String) : countOpen [] sym = 0 := rfl

lemma countOpen_cons (p : Position) (rest : List Position) (sym : String) :
    countOpen (p :: rest) sym =
      (if p.symbol = sym ∧ p.status = "open" then 1 else 0) + countOpen rest sym := by
  by_cases h : p.symbol = sym ∧ p.status = "open" <;>
    simp [countOpen, List.filter, h, Nat.add_comm]

lemma countOpen_save (store : List Position) (pos : Position)
    (hpos : pos.status = "open") (sym : String) :
    countOpen (save_demo_position store pos) sym =
      if sym = pos.symbol then max (countOpen store sym) 1 else countOpen store sym := by
  induction store with
  | nil =>
      by_cases hs : sym = pos.symbol
      · rw [if_pos hs, save_demo_position, countOpen_cons, if_pos ⟨hs.symm, rfl⟩,
            countOpen_nil]
        rfl
      · rw [if_neg hs, save_demo_position, countOpen_cons,
            if_neg (fun hh => hs hh.1.symm), countOpen_nil]
  | cons p rest ih =>
      rw [save_demo_position]
      by_cases hmatch : p.symbol = pos.symbol ∧ p.status = "open"
      · rw [if_pos hmatch, countOpen_cons, countOpen_cons]
        by_cases hs : sym = pos.symbol
        · rw [if_pos hs, if_pos ⟨hs.symm, hpos⟩, if_pos ⟨hmatch.1.trans hs.symm, hmatch.2⟩]
          omega
        · rw [if_neg hs, if_neg (fun hh => hs hh.1.symm),
              if_neg (fun hh => hs (hh.1.symm.trans hmatch.1))]
      · rw [if_neg hmatch, countOpen_cons, countOpen_cons, ih]
        by_cases hs : sym = pos.symbol
        · rw [if_pos hs, if_pos hs]
          have hp : ¬(p.symbol = sym ∧ p.status = "open") :=
            fun hh => hmatch ⟨hh.1.trans hs, hh.2⟩
          rw [if_neg hp]
          omega
        · rw [if_neg hs, if_neg hs]

/-- C1 counterexample: with an open BTC/USDT position already in the demo
store, a new actionable open decision for the same pair is not suppressed:
the demo flow executes the (virtual) trade and `save_demo_position`
overwrites the stored open position (its entry moves from 100 to 120),
so the store changes rather than the open being discarded. -/
theorem duplicate_open_not_suppressed_counterexample :
    countOpen [⟨"BTC/USDT", "open", 100, 1⟩] "BTC/USDT" = 1 ∧
    save_demo_position [⟨"BTC/USDT", "open", 100, 1⟩] ⟨"BTC/USDT", "open", 120, 1⟩
      ≠ [⟨"BTC/USDT", "open", 100, 1⟩] := by
  refine ⟨by decide, fun h => ?_⟩
  rw [save_demo_position, if_pos ⟨rfl, rfl⟩] at h
  simp only [List.cons.injEq, Position.mk.injEq, and_true, true_and] at h
  norm_num at h

/-- C1 amended: in real mode, an open decision is suppressed whenever the
exchange reports an open position for the same symbol; in demo mode the open
is not suppressed, but the store merges the new trade into the existing open
position for the symbol, so under single-threaded access the store never
holds two open positions for one (account, symbol) pair. -/
theorem single_open_position_amended :
    (∀ (positions : List ExchangePosition) (sym : String) (maxPos : ℕ),
      (∃ p ∈ positions, p.contracts ≠ 0 ∧ p.symbol = sym) →
      real_open_allowed positions sym maxPos = false) ∧
    (∀ (store : List Position) (pos : Position), pos.status = "open" →
      atMostOneOpen store → atMostOneOpen (save_demo_position store pos)) := by
  constructor
  · rintro positions sym maxPos ⟨p, hp, hc, hsym⟩
    have hmem : p ∈ positions.filter fun q => decide (q.contracts ≠ 0) :=
      List.mem_filter.2 ⟨hp, by simpa using hc⟩
    have hany : (positions.filter fun q => decide (q.contracts ≠ 0)).any
        (fun q => decide (q.symbol = sym)) = true :=
      List.any_eq_true.2 ⟨p, hmem, by simpa using hsym⟩
    show (!(decide (maxPos ≤ (positions.filter fun q => decide (q.contracts ≠ 0)).length)) &&
      !((positions.filter fun q => decide (q.contracts ≠ 0)).any
        fun q => decide (q.symbol = sym))) = false
    rw [hany]
    simp
  · intro store pos hpos hinv sym
    rw [countOpen_save store pos hpos sym]
    split_ifs with hs
    · have := hinv sym
      omega
    · exact hinv sym

/-- C1 amended witness: the real-mode guard suppresses a duplicate BTC/USDT
open, and saving over a one-position store keeps at most one open per
symbol. -/
theorem single_open_position_amended_witness :
    real_open_allowed [⟨"BTC/USDT", 1⟩] "BTC/USDT" 5 = false ∧
    atMostOneOpen (save_demo_position [⟨"BTC/USDT", "open", 100, 1⟩]
      ⟨"BTC/USDT", "open", 120, 1⟩) :=
  ⟨single_open_position_amended.1 [⟨"BTC/USDT", 1⟩] "BTC/USDT" 5
      ⟨⟨"BTC/USDT", 1⟩, by simp, by norm_num, rfl⟩,
   single_open_position_amended.2 [⟨"BTC/USDT", "open", 100, 1⟩]
      ⟨"BTC/USDT", "open", 120, 1⟩ rfl
      (fun sym => by
        rw [countOpen_cons, countOpen_nil]
        split_ifs <;> omega)⟩

/-! ## Drawdown circuit breaker (C5)
(`services/auto_trading.py` lines 105-129, demo branch of the scan loop) -/

/-- Per-account runtime state read by the drawdown check. -/
structure AccountState where
  auto_trading_enabled : Bool
  demo_balance : ℚ
  max_drawdown_percent : ℚ
deriving DecidableEq

/-- Drawdown percentage against the fixed demo baseline
(auto_trading.py line 111): `(initial - current) / initial * 100`,
guarded on a positive baseline. -/
def drawdownOf (initial current : ℚ) : ℚ :=
  if initial > 0 then (initial - current) / initial * 100 else 0

/-- One drawdown check of the scan loop (auto_trading.py lines 108-129):
the demo baseline is 10000; when the drawdown strictly exceeds the
configured maximum the account's auto-trading flag is cleared and the loop
breaks (second component `true`); otherwise the state is unchanged and the
loop continues. -/
def drawdown_check (st : AccountState) : AccountState × Bool :=
  if drawdownOf 10000 st.demo_balance > st.max_drawdown_percent then
    ({ st with auto_trading_enabled := false }, true)
  else (st, false)

/-- C5.  The circuit breaker fires exactly when drawdown strictly exceeds the
configured maximum; firing disables trading and exits the loop.  With the
10000 baseline and a 20% maximum: equity 7900 (21% drawdown) disables the
account and exits, equity 8100 (19%) leaves the state unchanged and
continues. -/
theorem drawdown_circuit_breaker :
    (∀ st : AccountState,
      ((drawdown_check st).2 = true ↔
        drawdownOf 10000 st.demo_balance > st.max_drawdown_percent) ∧
      ((drawdown_check st).2 = true →
        (drawdown_check st).1.auto_trading_enabled = false) ∧
      ((drawdown_check st).2 = false → (drawdown_check st).1 = st)) ∧
    drawdown_check ⟨true, 7900, 20⟩ = (⟨false, 7900, 20⟩, true) ∧
    drawdown_check ⟨true, 8100, 20⟩ = (⟨true, 8100, 20⟩, false) := by
  refine ⟨fun st => ?_, ?_, ?_⟩
  · unfold drawdown_check
    split_ifs with hdd
    · exact ⟨by simp [hdd], fun _ => rfl, fun hf => by simp at hf⟩
    · exact ⟨by simp [hdd], fun ht => by simp at ht, fun _ => rfl⟩
  · rw [drawdown_check, if_pos (by norm_num [drawdownOf])]
  · rw [drawdown_check, if_neg (by norm_num [drawdownOf])]

/-- C5 witness: the general clause applied at the 21%-drawdown state. -/
theorem drawdown_circuit_breaker_witness :
    (drawdown_check ⟨true, 7900, 20⟩).1.auto_trading_enabled = false :=
  (drawdown_circuit_breaker.1 ⟨true, 7900, 20⟩).2.1
    (by rw [drawdown_check, if_pos (by norm_num [drawdownOf])])

/-! ## Position monitor (C4)
(`services/auto_trading.py` `_monitor_positions`, lines 807-952) -/

/-- Close reasons distinguished by the monitor. -/
inductive CloseReason
  | stopLossHit
  | takeProfitHit
  | forceTime
  | softTime
deriving DecidableEq

/-- Python truthiness of an optional price level: absent or zero is falsy. -/
def truthyQ : Option ℚ → Bool
  | none => false
  | some x => decide (x ≠ 0)

/-- Direction-aware stop/target hit test (auto_trading.py lines 876-893):
for long, close when price ≤ stop or price ≥ target, the stop checked
first; mirrored for short. -/
def priceCloseReason (direction : String) (stop_loss take_profit : Option ℚ)
    (price : ℚ) : Option CloseReason :=
  let slv := stop_loss.getD 0
  let tpv := take_profit.getD 0
  if direction = "long" then
    if slv ≠ 0 ∧ price ≤ slv then some .stopLossHit
    else if tpv ≠ 0 ∧ price ≥ tpv then some .takeProfitHit
    else none
  else
    if slv ≠ 0 ∧ price ≥ slv then some .stopLossHit
    else if tpv ≠ 0 ∧ price ≤ tpv then some .takeProfitHit
    else none

/-- One monitor check for one stored trade (auto_trading.py lines 827-907).
`holding` is the holding time in minutes when the record carries a parseable
`entry_time` (otherwise `none`, in which case the source leaves
`holding_time_minutes = 0` and never sets the time flags); `price` is the
ticker's last price (`none` models a falsy fetch).  Returns the close reason,
or `none` when the trade is skipped or left open.  Trades with a zero entry
or with neither stop nor target are skipped outright (line 836), as are
trades with no usable price (line 873).  A holding time at or past
`force_close` always closes with the force reason, overriding a stop/target
hit detected in the same check (lines 895-903); a holding time at or past
`max_holding` only closes when no stop/target hit was detected. -/
def monitorTradeAction (status : String) (close_price : Option ℚ) (entry : ℚ)
    (stop_loss take_profit : Option ℚ) (direction : String)
    (holding : Option ℚ) (max_holding force_close : ℚ)
    (price : Option ℚ) : Option CloseReason :=
  if ¬(status = "open" ∧ close_price = none) then none
  else if entry = 0 ∨ (¬ truthyQ stop_loss ∧ ¬ truthyQ take_profit) then none
  else
    let holdingMinutes := holding.getD 0
    let timeFlag := holding.isSome ∧
      (holdingMinutes ≥ force_close ∨ holdingMinutes ≥ max_holding)
    let timeReason : CloseReason :=
      if holdingMinutes ≥ force_close then .forceTime else .softTime
    match price with
    | none => none
    | some pr =>
        if pr = 0 then none
        else
          let pc := priceCloseReason direction stop_loss take_profit pr
          if timeFlag ∧ holdingMinutes ≥ force_close then some timeReason
          else if timeFlag ∧ pc = none then some timeReason
          else pc

/-- C4 counterexample: a demo position with entry 100 but neither stop-loss
nor take-profit recorded is skipped by the monitor (auto_trading.py line
836), so even 20 minutes past open with a 10-minute force-close threshold it
is not closed. -/
theorem force_close_skipped_counterexample :
    (20:ℚ) > 10 ∧
    monitorTradeAction "open" none 100 none none "long" (some 20) 7 10 (some 100)
      = none := by
  constructor
  · norm_num
  · rw [monitorTradeAction, if_neg (by simp), if_pos (by simp [truthyQ])]

/-- C4 amended: for an open trade that the monitor actually evaluates
(nonzero entry, at least one truthy stop/target level, a known entry time
and a nonzero current price), a holding time at or past the hard force-close
threshold closes it on this check with the force-time reason regardless of
price; a holding time at or past only the soft threshold closes it too,
keeping the price-based reason when a stop/target hit was detected in the
same check and using the soft-time reason otherwise.  Trades with no
stop/target levels, no entry time, or no price are skipped entirely. -/
theorem force_close_amended (entry : ℚ) (sl tp : Option ℚ) (direction : String)
    (h maxH forceC pr : ℚ)
    (hentry : entry ≠ 0) (hlvl : truthyQ sl = true ∨ truthyQ tp = true)
    (hpr : pr ≠ 0) :
    (forceC ≤ h →
      monitorTradeAction "open" none entry sl tp direction (some h) maxH forceC (some pr)
        = some .forceTime) ∧
    (maxH ≤ h → h < forceC →
      monitorTradeAction "open" none entry sl tp direction (some h) maxH forceC (some pr)
        = some ((priceCloseReason direction sl tp pr).getD .softTime)) := by
  have hskip : ¬(entry = 0 ∨ (¬ truthyQ sl ∧ ¬ truthyQ tp)) := by
    rcases hlvl with hl | hl <;> simp [hentry, hl]
  constructor
  · intro hforce
    rw [monitorTradeAction, if_neg (by simp), if_neg hskip]
    simp only [Option.getD_some, Option.isSome_some]
    rw [if_neg hpr, if_pos ⟨⟨trivial, Or.inl (by linarith)⟩, by linarith⟩,
        if_pos (by linarith)]
  · intro hsoft hlt
    rw [monitorTradeAction, if_neg (by simp), if_neg hskip]
    simp only [Option.getD_some, Option.isSome_some]
    rw [if_neg hpr]
    rw [if_neg (fun hh => absurd hh.2 (by push_neg; exact hlt)),
        show (if h ≥ forceC then CloseReason.forceTime else .softTime) = .softTime
          from if_neg (by push_neg; exact hlt)]
    rcases hpc : priceCloseReason direction sl tp pr with _ | r
    · rw [if_pos ⟨⟨trivial, Or.inr (by linarith)⟩, rfl⟩]
      rfl
    · rw [if_neg (fun hh => Option.noConfusion hh.2)]
      rfl

/-- C4 amended witness: a long position 12 minutes old with a 10-minute
force-close threshold closes with the force-time reason. -/
theorem force_close_amended_witness :
    monitorTradeAction "open" none 100 (some 95) (some 110) "long" (some 12) 7 10
      (some 100) = some .forceTime :=
  (force_close_amended 100 (some 95) (some 110) "long" 12 7 10 100
      (by norm_num) (Or.inl (by norm_num [truthyQ])) (by norm_num)).1
    (by norm_num)

/-! ## Structure breaks: BOS / CHOCH (C8)
(`services/advanced_analysis.py` `detect_bos_choch`, lines 404-447) -/

/-- Count of adjacent pairs satisfying a relation along a list. -/
def countAdjacent (rel : ℚ → ℚ → Bool) : List ℚ → ℕ
  | a :: b :: rest => (if rel a b then 1 else 0) + countAdjacent rel (b :: rest)
  | _ => 0

/-- `higher_highs` of advanced_analysis.py line 432: the number of indices
`i` in the window with `highs[i] > highs[i-1]`. -/
def higherHighsCount (highs : List ℚ) : ℕ :=
  countAdjacent (fun prev next => decide (next > prev)) highs

/-- `lower_lows` of advanced_analysis.py line 433. -/
def lowerLowsCount (lows : List ℚ) : ℕ :=
  countAdjacent (fun prev next => decide (next < prev)) lows

def listMaxD (xs : List ℚ) (d : ℚ) : ℚ :=
  match xs with
  | [] => d
  | x :: rest => rest.foldl max x

def listMinD (xs : List ℚ) (d : ℚ) : ℚ :=
  match xs with
  | [] => d
  | x :: rest => rest.foldl min x

/-- Result record of `detect_bos_choch` (`structureLabel` is the source's
`structure` key). -/
structure StructureResult where
  bos : Option String
  choch : Option String
  structureLabel : String
deriving DecidableEq

/-- `AdvancedMarketAnalyzer.detect_bos_choch` (advanced_analysis.py lines
404-447): `none` models the empty dictionary returned for fewer than 20
candles.  The CHOCH rule compares the TOTAL counts of adjacent higher-high
and lower-low pairs over the last 10 candles, with the bearish branch tested
first. -/
def detect_bos_choch (ohlcv : List Candle) : Option StructureResult :=
  if ohlcv.length < 20 then none
  else
    let highs := (lastN 10 ohlcv).map (·.high)
    let lows := (lastN 10 ohlcv).map (·.low)
    let highest_high := listMaxD (ohlcv.map (·.high)) 0
    let lowest_low := listMinD (ohlcv.map (·.low)) 0
    let current_high := (ohlcv.getLastD ⟨0, 0, 0, 0⟩).high
    let current_low := (ohlcv.getLastD ⟨0, 0, 0, 0⟩).low
    let bos : Option String :=
      if current_high > highest_high * 0.99 then some "bos_breakout_up"
      else if current_low < lowest_low * 1.01 then some "bos_breakdown_down"
      else none
    let higher_highs := higherHighsCount highs
    let lower_lows := lowerLowsCount lows
    let choch : Option String :=
      if higher_highs ≥ 3 ∧ lower_lows ≥ 2 then some "choch_bearish"
      else if lower_lows ≥ 3 ∧ higher_highs ≥ 2 then some "choch_bullish"
      else none
    let label :=
      if higher_highs > lower_lows then "uptrend"
      else if lower_lows > higher_highs then "downtrend"
      else "range"
    some ⟨bos, choch, label⟩

/-- The claimed bearish CHOCH pattern, written from the spec's words: a run
of at least 3 consecutive higher-highs immediately followed by at least
2 consecutive lower-lows somewhere in the window. -/
def hasBearishCHOCHRun (highs lows : List ℚ) : Bool :=
  (List.range highs.length).any fun j =>
    decide (j + 6 ≤ highs.length) &&
    ((List.range 3).all fun t => decide (highs.getD (j + t) 0 < highs.getD (j + t + 1) 0)) &&
    ((List.range 2).all fun t => decide (lows.getD (j + 4 + t) 0 < lows.getD (j + 3 + t) 0))

/-- The mirror (bullish) pattern from the spec's words. -/
def hasBullishCHOCHRun (highs lows : List ℚ) : Bool :=
  (List.range lows.length).any fun j =>
    decide (j + 6 ≤ lows.length) &&
    ((List.range 3).all fun t => decide (lows.getD (j + t + 1) 0 < lows.getD (j + t) 0)) &&
    ((List.range 2).all fun t => decide (highs.getD (j + 3 + t) 0 < highs.getD (j + 4 + t) 0))

/-- A 20-candle window whose last 10 candles have three scattered
(non-consecutive) higher-highs and two leading lower-lows. -/
def cxCandles : List Candle :=
  List.replicate 10 ⟨10, 5, 7, 1⟩ ++
  [⟨10, 5, 7, 1⟩, ⟨11, 4, 7, 1⟩, ⟨10, 3, 7, 1⟩, ⟨11, 3, 7, 1⟩, ⟨10, 3, 7, 1⟩,
   ⟨11, 3, 7, 1⟩, ⟨10, 3, 7, 1⟩, ⟨10, 3, 7, 1⟩, ⟨10, 3, 7, 1⟩, ⟨10, 3, 7, 1⟩]

/-- C8 counterexample: on `cxCandles` the code fires a bearish CHOCH
(3 higher-high pairs in total, 2 lower-low pairs in total), yet the last-10
window contains neither a run of three consecutive higher-highs immediately
followed by two consecutive lower-lows, nor the mirror pattern.  The
detector counts totals, not consecutive ordered runs. -/
theorem choch_fires_without_run_counterexample :
    (detect_bos_choch cxCandles).map (·.choch) = some (some "choch_bearish") ∧
    hasBearishCHOCHRun ((lastN 10 cxCandles).map (·.high))
      ((lastN 10 cxCandles).map (·.low)) = false ∧
    hasBullishCHOCHRun ((lastN 10 cxCandles).map (·.high))
      ((lastN 10 cxCandles).map (·.low)) = false :=
  ⟨by decide, by decide, by decide⟩

/-- C8 amended: whenever `detect_bos_choch` returns a result (at least 20
candles), its CHOCH field is `choch_bearish` exactly when the last-10 window
has at least 3 adjacent higher-high pairs and at least 2 adjacent lower-low
pairs in total; `choch_bullish` exactly when that fails but there are at
least 3 lower-low pairs and 2 higher-high pairs; no consecutivity or
ordering of the pairs is required. -/
theorem choch_amended (ohlcv : List Candle) (r : StructureResult)
    (h : detect_bos_choch ohlcv = some r) :
    (r.choch = some "choch_bearish" ↔
      higherHighsCount ((lastN 10 ohlcv).map (·.high)) ≥ 3 ∧
      lowerLowsCount ((lastN 10 ohlcv).map (·.low)) ≥ 2) ∧
    (r.choch = some "choch_bullish" ↔
      (¬(higherHighsCount ((lastN 10 ohlcv).map (·.high)) ≥ 3 ∧
         lowerLowsCount ((lastN 10 ohlcv).map (·.low)) ≥ 2) ∧
       lowerLowsCount ((lastN 10 ohlcv).map (·.low)) ≥ 3 ∧
       higherHighsCount ((lastN 10 ohlcv).map (·.high)) ≥ 2)) := by
  rw [detect_bos_choch] at h
  split_ifs at h
  rw [Option.some.injEq] at h
  subst h
  dsimp only
  constructor
  · split_ifs with h1 h2 <;> simp_all
  · split_ifs with h1 h2 <;> simp_all

/-- C8 amended witness: the characterisation applied to `cxCandles`
recovers the counts that made the bearish CHOCH fire. -/
theorem choch_amended_witness :
    higherHighsCount ((lastN 10 cxCandles).map (·.high)) ≥ 3 ∧
    lowerLowsCount ((lastN 10 cxCandles).map (·.low)) ≥ 2 := by
  rcases hr : detect_bos_choch cxCandles with _ | r
  · exact absurd hr (by decide)
  · have hm : (detect_bos_choch cxCandles).map (·.choch) = some (some "choch_bearish") := by
      decide
    rw [hr, Option.map_some'] at hm
    have hc : r.choch = some "choch_bearish" := by injection hm
    exact (choch_amended cxCandles r hr).1.mp hc

/-! ## Decision engine (C9)
(`services/trading.py` `TradingEngine._make_decision`, lines 464-651) -/

/-- An advanced-analysis signal entry ({'type', 'strength'}). -/
structure AdvSignal where
  type : String
  strength : ℚ
deriving DecidableEq

/-- The slice of the analysis dictionary read by `_make_decision`.
`volume_rel` is `indicators['volume']['ratio']` in the source. -/
structure DecisionInput where
  final_signal : String
  probability : ℚ
  confirmation_count : ℕ
  min_confirmations : ℕ
  adv_signals : List AdvSignal
  of_signal : String
  of_strength : ℚ
  sweeps_count : ℕ
  has_divergence : Bool
  has_bos : Bool
  has_choch : Bool
  rsi_signal : String
  macd_signal : String
  volume_rel : ℚ
deriving DecidableEq

/-- `TradingEngine._make_decision` (trading.py lines 464-651), reduced to the
returned action string.  Thresholds start at 55 (strong) / 60 (normal),
lowered by the quality bonus, raised by 8 per missing confirmation and
floored at 35 / 40; conflicting indicators and low volume scale the
probability down; after the band branches, the strong-order-flow hatch
(strength ≥ 2.5, probability ≥ 40) and the divergence+sweep hatch
(probability ≥ 45) can still open. -/
def make_decision (a : DecisionInput) : String :=
  let base_min_strong : ℚ := 55
  let base_min_normal : ℚ := 60
  let long_count := (a.adv_signals.filter fun s => s.type = "long").length
  let short_count := (a.adv_signals.filter fun s => s.type = "short").length
  let has_sweep := 0 < a.sweeps_count
  let quality_bonus : ℚ :=
    (if has_sweep then 8 else 0) + (if a.has_divergence then 10 else 0) +
    (if a.has_bos then 6 else 0) + (if a.has_choch then 5 else 0) +
    (if a.of_strength > 2.0 then 5 else 0) +
    (if 3 ≤ long_count + short_count then 7
     else if 2 ≤ long_count + short_count then 4 else 0)
  let confirmation_penalty : ℚ :=
    max 0 (((a.min_confirmations : ℚ) - (a.confirmation_count : ℚ)) * 8)
  let min_probability_strong := max 35 (base_min_strong - quality_bonus + confirmation_penalty)
  let min_probability_normal := max 40 (base_min_normal - quality_bonus + confirmation_penalty)
  if a.confirmation_count < a.min_confirmations ∧ a.probability < min_probability_normal then
    "skip"
  else
    let prob1 :=
      if (a.final_signal = "long" ∨ a.final_signal = "strong_long") ∧
          (a.rsi_signal = "overbought" ∨ a.macd_signal = "bearish") then
        max (a.probability * 0.7) 30
      else if (a.final_signal = "short" ∨ a.final_signal = "strong_short") ∧
          (a.rsi_signal = "oversold" ∨ a.macd_signal = "bullish") then
        max (a.probability * 0.7) 30
      else a.probability
    let prob2 := if a.volume_rel < 0.7 then max (prob1 * 0.85) 25 else prob1
    if a.final_signal = "strong_long" ∧ prob2 ≥ min_probability_strong then "open_long"
    else if a.final_signal = "strong_short" ∧ prob2 ≥ min_probability_strong then "open_short"
    else if (a.final_signal = "long" ∨ a.final_signal = "short") ∧
        prob2 ≥ min_probability_normal then
      "open_" ++ a.final_signal
    else if a.of_signal = "long" ∧ a.of_strength ≥ 2.5 ∧ prob2 ≥ 40 then "open_long"
    else if a.of_signal = "short" ∧ a.of_strength ≥ 2.5 ∧ prob2 ≥ 40 then "open_short"
    else if a.has_divergence ∧ has_sweep ∧ prob2 ≥ 45 then
      (if a.final_signal ≠ "neutral" then "open_" ++ a.final_signal else "skip")
    else "skip"

/-- The trend-forced-neutral analysis state of the C6 scenario, fed to the
decision engine with a strong long order flow. -/
def c9NeutralInput : DecisionInput :=
  { final_signal := (applyTrend4hFilter (some .bearish) (finalSignalOf 20)
      (probabilityOf 20 (qualityBonus false false) 3)).1
    probability := (applyTrend4hFilter (some .bearish) (finalSignalOf 20)
      (probabilityOf 20 (qualityBonus false false) 3)).2.1
    confirmation_count := 3
    min_confirmations := 3
    adv_signals := []
    of_signal := "long"
    of_strength := 2.6
    sweeps_count := 0
    has_divergence := false
    has_bos := false
    has_choch := false
    rsi_signal := "neutral"
    macd_signal := "neutral"
    volume_rel := 1 }

/-- A fused long signal whose probability 42 is below its 55% adaptive
threshold, with a strong short order flow. -/
def c9OppositeInput : DecisionInput :=
  { final_signal := "long"
    probability := 42
    confirmation_count := 3
    min_confirmations := 3
    adv_signals := []
    of_signal := "short"
    of_strength := 2.6
    sweeps_count := 0
    has_divergence := false
    has_bos := false
    has_choch := false
    rsi_signal := "neutral"
    macd_signal := "neutral"
    volume_rel := 1 }

/-- C9.  The strong-order-flow escape hatch opens along the order-flow
direction even when the fused signal is neutral — here forced to neutral by
the 4H trend filter — and even against the fused direction: a fused long
below threshold with a strong short order flow opens a short. -/
theorem order_flow_hatch_overrides_signal :
    c9NeutralInput.final_signal = "neutral" ∧
    make_decision c9NeutralInput = "open_long" ∧
    c9OppositeInput.final_signal = "long" ∧
    make_decision c9OppositeInput = "open_short" := by
  have h1 : c9NeutralInput.final_signal = "neutral" := by
    show (applyTrend4hFilter _ _ _).1 = "neutral"
    rw [probEval_C6, filterEval_C6]
  have hp : c9NeutralInput.probability = 183/4 := by
    show (applyTrend4hFilter _ _ _).2.1 = 183/4
    rw [probEval_C6, filterEval_C6]
  refine ⟨h1, ?_, rfl, ?_⟩
  · rw [show c9NeutralInput =
      { c9NeutralInput with final_signal := "neutral", probability := 183/4 } from by
        rw [← h1, ← hp]]
    simp only [make_decision, c9NeutralInput]
    simp only [String.reduceEq, eq_self_iff_true, false_or, or_false, or_self,
      false_and, and_false, if_false, if_true, true_and, and_true,
      List.filter_nil, List.length_nil]
    norm_num
  · simp only [make_decision, c9OppositeInput]
    simp only [String.reduceEq, eq_self_iff_true, false_or, or_false, or_self,
      false_and, and_false, if_false, if_true, true_and, and_true,
      List.filter_nil, List.length_nil]
    norm_num

/-! ## Liquidity pools and the zero-range volume profile (C10)
(`services/advanced_analysis.py` `analyze_liquidity_pools`, lines 140-205) -/

/-- The slice of IEEE-float behaviour exercised by the volume-profile bucket
computation: a finite value, NaN, or a signed infinity.  `0.0 / 0.0` is NaN
and `x / 0.0` is a signed infinity for numpy float64 operands (as produced
by the pandas columns here); converting NaN or an infinity to `int` raises,
which the `Except` result models. -/
inductive PFloat
  | num (q : ℚ)
  | nan
  | inf
  | ninf
deriving DecidableEq

/-- numpy float64 division on the values reachable here. -/
def pdiv : PFloat → PFloat → PFloat
  | .num a, .num b =>
      if b = 0 then (if a = 0 then .nan else if a > 0 then .inf else .ninf)
      else .num (a / b)
  | _, _ => .nan

/-- Python `int(...)` on a float: truncation toward zero for finite values,
`ValueError` / `OverflowError` for NaN and infinities. -/
def pfloatToInt : PFloat → Except String ℤ
  | .num q => .ok (q.num / (q.den : ℤ))
  | .nan => .error "cannot convert float NaN to integer"
  | _ => .error "cannot convert float infinity to integer"

/-- Python `round(x, 2)` (the source rounds bucket keys for display; Python
rounds ties to even, which none of the values considered here hit). -/
def round2 (x : ℚ) : ℚ := (round (x * 100) : ℚ) / 100

/-- Insertion-ordered accumulation of a volume into the profile dictionary. -/
def addVolume : List (ℚ × ℚ) → ℚ → ℚ → List (ℚ × ℚ)
  | [], k, v => [(k, v)]
  | (k', v') :: rest, k, v =>
      if k' = k then (k', v' + v) :: rest else (k', v') :: addVolume rest k v

/-- The volume-profile loop (advanced_analysis.py lines 155-161): each
candle's low is bucketed by `int((low - min_low) / level_size)`; the int
conversion propagates the float error on a degenerate bucket size. -/
def buildVolumeProfile (min_low level_size : ℚ) :
    List Candle → List (ℚ × ℚ) → Except String (List (ℚ × ℚ))
  | [], acc => .ok acc
  | cd :: rest, acc =>
      match pfloatToInt (pdiv (.num (cd.low - min_low)) (.num level_size)) with
      | .error e => .error e
      | .ok idx =>
          buildVolumeProfile min_low level_size rest
            (addVolume acc (round2 (min_low + (idx : ℚ) * level_size)) cd.vol)

/-- Python `max(dict, key=dict.get)`: the first key attaining the maximal
value, threaded as (key, value). -/
def pocAux (best : ℚ × ℚ) : List (ℚ × ℚ) → ℚ × ℚ
  | [] => best
  | kv :: rest => pocAux (if kv.2 > best.2 then kv else best) rest

def insertSorted (x : ℚ) : List ℚ → List ℚ
  | [] => [x]
  | y :: rest => if x ≤ y then x :: y :: rest else y :: insertSorted x rest

/-- Python `sorted` on a list of levels. -/
def sortQ (xs : List ℚ) : List ℚ := xs.foldr insertSorted []

def listMaxOf : List ℚ → Option ℚ
  | [] => none
  | x :: rest => some (rest.foldl max x)

def listMinOf : List ℚ → Option ℚ
  | [] => none
  | x :: rest => some (rest.foldl min x)

/-- Result of `_analyze_pool_position` (advanced_analysis.py lines 189-205). -/
structure PoolPosition where
  position : String
  nearest_pool_below : Option ℚ
  nearest_pool_above : Option ℚ
  distance_to_poc : ℚ
deriving DecidableEq

def analyze_pool_position (current_price poc : ℚ) (hvn lvn : List ℚ) : PoolPosition :=
  let all_levels := sortQ ([poc] ++ hvn ++ lvn)
  let below := all_levels.filter fun l => decide (l < current_price)
  let above := all_levels.filter fun l => decide (l > current_price)
  { position :=
      if current_price > poc then "above_poc"
      else if current_price < poc then "below_poc" else "at_poc"
    nearest_pool_below := listMaxOf below
    nearest_pool_above := listMinOf above
    distance_to_poc := if poc > 0 then |current_price - poc| / poc * 100 else 0 }

/-- Result of `analyze_liquidity_pools`. -/
structure PoolResult where
  poc : ℚ
  poc_volume : ℚ
  hvn_levels : List ℚ
  lvn_levels : List ℚ
  current_price : ℚ
  position : String
  nearest_pool_below : Option ℚ
  nearest_pool_above : Option ℚ
  distance_to_poc : ℚ
deriving DecidableEq

/-- `AdvancedMarketAnalyzer.analyze_liquidity_pools` (advanced_analysis.py
lines 140-187): `.ok none` models the empty dictionary returned for fewer
than 10 candles; `.error` models an uncaught Python exception escaping the
function (the int() conversion inside the bucket loop, or the unbound
`poc_level` if the profile were empty). -/
def analyze_liquidity_pools (ohlcv : List Candle) : Except String (Option PoolResult) :=
  if ohlcv.length < 10 then .ok none
  else
    let min_low := listMinD (ohlcv.map (·.low)) 0
    let price_range := listMaxD (ohlcv.map (·.high)) 0 - min_low
    let level_size := price_range / 20
    match buildVolumeProfile min_low level_size ohlcv [] with
    | .error e => .error e
    | .ok profile =>
        match profile with
        | [] => .error "NameError: poc_level"
        | kv :: rest =>
            let poc := pocAux kv rest
            let avg := (profile.map (·.2)).sum / (profile.length : ℚ)
            let hvn := (profile.filter fun p => decide (p.2 > avg * 1.5)).map (·.1)
            let lvn := (profile.filter fun p => decide (p.2 < avg * 0.5)).map (·.1)
            let current_price := (ohlcv.getLastD ⟨0, 0, 0, 0⟩).close
            let pa := analyze_pool_position current_price poc.1 hvn lvn
            let res : PoolResult :=
              { poc := poc.1
                poc_volume := poc.2
                hvn_levels := sortQ hvn
                lvn_levels := sortQ lvn
                current_price := current_price
                position := pa.position
                nearest_pool_below := pa.nearest_pool_below
                nearest_pool_above := pa.nearest_pool_above
                distance_to_poc := pa.distance_to_poc }
            .ok (some res)

/-- C10.  On a 12-candle window in which every candle's high equals its low
(zero visible price range), the liquidity-pool analysis aborts with the
NaN-to-int conversion error instead of returning any result: the bucket size
is 0, `0.0 / 0.0` is NaN, and `int(NaN)` raises. -/
theorem liquidity_pools_zero_range_raises :
    analyze_liquidity_pools (List.replicate 12 ⟨100, 100, 100, 5⟩)
      = .error "cannot convert float NaN to integer" := by
  have hmin : listMinD ((List.replicate 12 (⟨100, 100, 100, 5⟩ : Candle)).map (·.low)) 0
      = 100 := by
    simp [listMinD, List.replicate, min_self]
  have hmax : listMaxD ((List.replicate 12 (⟨100, 100, 100, 5⟩ : Candle)).map (·.high)) 0
      = 100 := by
    simp [listMaxD, List.replicate, max_self]
  rw [analyze_liquidity_pools, if_neg (by simp)]
  simp only [hmin, hmax]
  rw [show (100 : ℚ) - 100 = 0 by norm_num, show (0 : ℚ) / 20 = 0 by norm_num]
  rw [show List.replicate 12 (⟨100, 100, 100, 5⟩ : Candle)
      = ⟨100, 100, 100, 5⟩ :: List.replicate 11 ⟨100, 100, 100, 5⟩ from List.replicate_succ ..]
  rw [buildVolumeProfile]
  rw [show pdiv (.num ((100:ℚ) - 100)) (.num 0) = .nan by norm_num [pdiv]]
  rfl
